import Mathlib

/-!
Verification of the `uuid` Go package (RFC4122-style identifier generation,
textual encoding/decoding and versioning) against its natural-language
specification.  The Go source is shallowly embedded: bytes are `Nat` values
kept below 256 by construction, the 16-byte identifier array is a length-16
list, machine arithmetic uses explicit `% 2^w`, mutation of the package-wide
generation state is explicit state passing, and the clock / random source are
universally quantified inputs.
-/

set_option maxRecDepth 4096

namespace UuidGo

/-- A UUID: the Go `type UUID struct { u [16]byte }`, a 16-byte array. -/
def UUID : Type := { l : List Nat // l.length = 16 }

instance : DecidableEq UUID := fun a b =>
  decidable_of_iff (a.val = b.val) Subtype.ext_iff.symm

/-- Byte `i` of a UUID (`u.u[i]`). -/
def getByte (u : UUID) (i : Nat) : Nat := u.val.getD i 0

/-- Write byte `i` of a UUID (`u.u[i] = v`). -/
def setByte (u : UUID) (i v : Nat) : UUID :=
  ⟨u.val.set i v, by rw [List.length_set]; exact u.property⟩

/-- The Nil UUID: `var NilUUID UUID`, the zero value (all 16 bytes zero). -/
def NilUUID : UUID := ⟨List.replicate 16 0, by simp⟩

/-- Go's `copy(dst, src)` on byte slices: overwrite the first
`min dst.length src.length` entries of `dst` with those of `src`. -/
def goCopy (dst src : List Nat) : List Nat :=
  src.take (min dst.length src.length) ++ dst.drop (min dst.length src.length)

theorem goCopy_length (dst src : List Nat) : (goCopy dst src).length = dst.length := by
  simp [goCopy]

/-- `UUID.Version`: `return u.u[6] >> 4`. -/
def uuidVersion (u : UUID) : Nat := getByte u 6 >>> 4

/-- The RFC4122 variant field: the top 2 bits of byte 8. -/
def variantBits (u : UUID) : Nat := getByte u 8 >>> 6

/-! ### The shared format string

Both `UUID.String` and `UUID.Parse` in the source use the single format
string `"%02x%02x%02x%02x-%02x%02x-%02x%02x-%02x%02x-%02x%02x%02x%02x%02x%02x"`,
the former with `fmt.Sprintf` over the 16 bytes in order and the latter with
`fmt.Sscanf` into the 16 bytes in order.  We represent that format once as a
list of items: a hex verb for operand `i` (meaning `u.u[i]`) or a literal
character. -/

inductive FmtItem : Type
  | verb (i : Nat)
  | lit (c : Char)
deriving DecidableEq

open FmtItem in
/-- The `8-4-4-4-12` format used by both `String` and `Parse`. -/
def goFmt : List FmtItem :=
  [verb 0, verb 1, verb 2, verb 3, lit '-',
   verb 4, verb 5, lit '-',
   verb 6, verb 7, lit '-',
   verb 8, verb 9, lit '-',
   verb 10, verb 11, verb 12, verb 13, verb 14, verb 15]

/-- Lowercase hex digit character for a value below 16 (`%x` output). -/
def hexDigitChar (v : Nat) : Char :=
  if v < 10 then Char.ofNat (48 + v) else Char.ofNat (87 + v)

/-- `%02x` rendering of a byte (two lowercase hex digits, for values < 256). -/
def hexPair (b : Nat) : List Char := [hexDigitChar (b / 16), hexDigitChar (b % 16)]

/-- `fmt.Sprintf` over the fixed format: verbs render the corresponding
byte of `u` as `%02x`, literals render themselves. -/
def renderFmt (u : UUID) : List FmtItem → List Char
  | [] => []
  | .verb i :: rest => hexPair (getByte u i) ++ renderFmt u rest
  | .lit c :: rest => c :: renderFmt u rest

/-- `UUID.String`: the canonical `8-4-4-4-12` lowercase representation. -/
def uuidToString (u : UUID) : String := String.mk (renderFmt u goFmt)

/-! ### Scanning (`fmt.Sscanf` semantics)

Modelled from the Go `fmt` scanning rules for this format: a `%02x` verb
into a `*byte` first discards leading spaces, then reads one or two hex
digits (upper or lower case; at least one required, at most two by the
width), assigning `16*d1+d2` (or `d1`); a literal character in the format
must match the next input character exactly; trailing unconsumed input is
not an error for `Sscanf`.  Operands are assigned one by one as their verbs
succeed, so a failure in the middle leaves the earlier operands written. -/

/-- Value of a hex digit character; `none` for every non-hex character. -/
def hexVal (c : Char) : Option Nat :=
  if 48 ≤ c.toNat ∧ c.toNat ≤ 57 then some (c.toNat - 48)
  else if 97 ≤ c.toNat ∧ c.toNat ≤ 102 then some (c.toNat - 87)
  else if 65 ≤ c.toNat ∧ c.toNat ≤ 70 then some (c.toNat - 55)
  else none

/-- Characters discarded by the scanner before a verb (space and tab). -/
def isSkipSpace (c : Char) : Bool := c.toNat = 32 || c.toNat = 9

/-- Scan one `%02x` operand: skip spaces, then one or two hex digits. -/
def scanByte (cs : List Char) : Option (Nat × List Char) :=
  match cs.dropWhile isSkipSpace with
  | [] => none
  | c1 :: rest =>
    match hexVal c1 with
    | none => none
    | some v1 =>
      match rest with
      | [] => some (v1, [])
      | c2 :: rest2 =>
        match hexVal c2 with
        | none => some (v1, c2 :: rest2)
        | some v2 => some (16 * v1 + v2, rest2)

/-- Match one literal format character against the input. -/
def scanLit (c : Char) (cs : List Char) : Option (List Char) :=
  match cs with
  | [] => none
  | c1 :: rest => if c1 = c then some rest else none

/-- `fmt.Sscanf` over the format: returns the (possibly partially updated)
UUID and the `err != nil` flag, exactly as `UUID.Parse` returns it. -/
def sscanfGo (u : UUID) (cs : List Char) : List FmtItem → UUID × Bool
  | [] => (u, false)
  | .verb i :: rest =>
    match scanByte cs with
    | none => (u, true)
    | some (v, cs') => sscanfGo (setByte u i v) cs' rest
  | .lit c :: rest =>
    match scanLit c cs with
    | none => (u, true)
    | some cs' => sscanfGo u cs' rest

/-- `UUID.Parse`: scans into the receiver's bytes, returns `err != nil`. -/
def uuidParseInto (u : UUID) (s : String) : UUID × Bool := sscanfGo u s.data goFmt

/-- Package-level `Parse`: scans into a zero UUID, returns it with the flag. -/
def parseUUID (s : String) : UUID × Bool := uuidParseInto NilUUID s

/-! ### The canonical pattern, as the specification words it

`isCanonicalUUIDString` is written from the specification's words, not from
the source: exactly 36 characters, 32 *lowercase* hex digits and 4 hyphens
at the fixed positions of the `8-4-4-4-12` grouping.  It is used to compare
the set of strings the source's `Parse` accepts with the set the
specification says it accepts. -/

/-- A lowercase hexadecimal digit (the specification's canonical alphabet). -/
def isLowerHex (c : Char) : Bool :=
  (48 ≤ c.toNat && c.toNat ≤ 57) || (97 ≤ c.toNat && c.toNat ≤ 102)

/-- Does the string match the canonical pattern exactly (spec's words):
each verb position holds exactly two lowercase hex digits, each literal
position holds that literal, and nothing follows. -/
def matchesCanonical : List FmtItem → List Char → Bool
  | [], [] => true
  | .verb _ :: rest, c1 :: c2 :: cs =>
    isLowerHex c1 && isLowerHex c2 && matchesCanonical rest cs
  | .lit h :: rest, c :: cs => (c = h) && matchesCanonical rest cs
  | _, _ => false

/-- The specification's canonical 36-character pattern. -/
def isCanonicalUUIDString (s : String) : Bool := matchesCanonical goFmt s.data

theorem hexVal_of_isLowerHex {c : Char} (h : isLowerHex c = true) :
    ∃ v, v < 16 ∧ hexVal c = some v := by
  simp only [isLowerHex, Bool.or_eq_true, Bool.and_eq_true, decide_eq_true_eq] at h
  rcases h with ⟨h1, h2⟩ | ⟨h1, h2⟩
  · refine ⟨c.toNat - 48, by omega, ?_⟩
    unfold hexVal
    rw [if_pos ⟨h1, h2⟩]
  · refine ⟨c.toNat - 87, by omega, ?_⟩
    unfold hexVal
    rw [if_neg (by omega), if_pos ⟨h1, h2⟩]

theorem isSkipSpace_of_isLowerHex {c : Char} (h : isLowerHex c = true) :
    isSkipSpace c = false := by
  simp only [isLowerHex, Bool.or_eq_true, Bool.and_eq_true, decide_eq_true_eq] at h
  simp only [isSkipSpace, Bool.or_eq_false_iff, decide_eq_false_iff_not]
  omega

/-- Scanning succeeds on every input matching the canonical pattern
(whatever the receiver holds, and whatever operand indices the format has). -/
theorem sscanf_canonical :
    ∀ (fmt : List FmtItem) (u : UUID) (cs : List Char),
      matchesCanonical fmt cs = true → (sscanfGo u cs fmt).2 = false := by
  intro fmt
  induction fmt with
  | nil => intro u cs _; rfl
  | cons item rest ih =>
    intro u cs h
    match item with
    | .verb i =>
      match cs with
      | [] => simp [matchesCanonical] at h
      | [c1] => simp [matchesCanonical] at h
      | c1 :: c2 :: cs' =>
        simp only [matchesCanonical, Bool.and_eq_true] at h
        obtain ⟨⟨h1, h2⟩, hrest⟩ := h
        obtain ⟨v1, hv1lt, hv1⟩ := hexVal_of_isLowerHex h1
        obtain ⟨v2, hv2lt, hv2⟩ := hexVal_of_isLowerHex h2
        have hsp : isSkipSpace c1 = false := isSkipSpace_of_isLowerHex h1
        have hscan : scanByte (c1 :: c2 :: cs') = some (16 * v1 + v2, cs') := by
          simp only [scanByte,
            List.dropWhile_cons_of_neg (by simp [hsp] : ¬ isSkipSpace c1 = true), hv1, hv2]
        show (sscanfGo u (c1 :: c2 :: cs') (.verb i :: rest)).2 = false
        unfold sscanfGo
        rw [hscan]
        exact ih _ _ hrest
    | .lit c =>
      match cs with
      | [] => simp [matchesCanonical] at h
      | c1 :: cs' =>
        simp only [matchesCanonical, Bool.and_eq_true, decide_eq_true_eq] at h
        obtain ⟨hc, hrest⟩ := h
        show (sscanfGo u (c1 :: cs') (.lit c :: rest)).2 = false
        unfold sscanfGo
        have hl : scanLit c (c1 :: cs') = some cs' := by
          simp [scanLit, hc]
        rw [hl]
        exact ih _ _ hrest

/-! ### Round-trip machinery -/

/-- The net effect of a successful scan: each verb's operand byte of `src`
written into `dst` in format order. -/
def writeFmt (dst src : UUID) : List FmtItem → UUID
  | [] => dst
  | .verb i :: rest => writeFmt (setByte dst i (getByte src i)) src rest
  | .lit _ :: rest => writeFmt dst src rest

theorem hexVal_hexDigitChar : ∀ v, v < 16 → hexVal (hexDigitChar v) = some v := by
  decide

theorem isSkipSpace_hexDigitChar : ∀ v, v < 16 → isSkipSpace (hexDigitChar v) = false := by
  decide

/-- Scanning a `%02x` rendering of a byte consumes exactly its two digits. -/
theorem scanByte_hexPair (b : Nat) (hb : b < 256) (cs : List Char) :
    scanByte (hexPair b ++ cs) = some (b, cs) := by
  have h1 : b / 16 < 16 := by omega
  have h2 : b % 16 < 16 := Nat.mod_lt _ (by norm_num)
  have hsp : ¬ isSkipSpace (hexDigitChar (b / 16)) = true := by
    simp [isSkipSpace_hexDigitChar _ h1]
  simp only [hexPair, List.cons_append, List.nil_append, scanByte,
    List.dropWhile_cons_of_neg hsp, hexVal_hexDigitChar _ h1, hexVal_hexDigitChar _ h2]
  rw [Nat.div_add_mod b 16]

/-- Scanning the rendering of `src` (through any format whose operand bytes
are in range) succeeds and writes exactly those bytes. -/
theorem sscanf_renderFmt (src : UUID) :
    ∀ (fmt : List FmtItem) (dst : UUID),
      (∀ i, FmtItem.verb i ∈ fmt → getByte src i < 256) →
      sscanfGo dst (renderFmt src fmt) fmt = (writeFmt dst src fmt, false) := by
  intro fmt
  induction fmt with
  | nil => intro dst _; rfl
  | cons item rest ih =>
    intro dst h
    match item with
    | .verb i =>
      have hb : getByte src i < 256 := h i (List.mem_cons_self _ _)
      show sscanfGo dst (hexPair (getByte src i) ++ renderFmt src rest) (.verb i :: rest) = _
      unfold sscanfGo
      rw [scanByte_hexPair _ hb]
      exact ih _ (fun j hj => h j (List.mem_cons_of_mem _ hj))
    | .lit c =>
      show sscanfGo dst (c :: renderFmt src rest) (.lit c :: rest) = _
      unfold sscanfGo
      have hl : scanLit c (c :: renderFmt src rest) = some (renderFmt src rest) := by
        simp [scanLit]
      rw [hl]
      exact ih _ (fun j hj => h j (List.mem_cons_of_mem _ hj))

/-- Peel one element off a list of known positive length. -/
theorem uncons_of_length (l : List Nat) (n : Nat) (h : l.length = n + 1) :
    ∃ x xs, l = x :: xs ∧ xs.length = n := by
  cases l with
  | nil => simp at h
  | cons x xs => exact ⟨x, xs, rfl, by simpa using h⟩

/-- A length-16 list is a 16-element literal. -/
theorem exists_sixteen (l : List Nat) (h : l.length = 16) :
    ∃ a0 a1 a2 a3 a4 a5 a6 a7 a8 a9 a10 a11 a12 a13 a14 a15,
      l = [a0, a1, a2, a3, a4, a5, a6, a7, a8, a9, a10, a11, a12, a13, a14, a15] := by
  obtain ⟨a0, l0, he0, h0⟩ := uncons_of_length l 15 h
  obtain ⟨a1, l1, he1, h1⟩ := uncons_of_length l0 14 h0
  obtain ⟨a2, l2, he2, h2⟩ := uncons_of_length l1 13 h1
  obtain ⟨a3, l3, he3, h3⟩ := uncons_of_length l2 12 h2
  obtain ⟨a4, l4, he4, h4⟩ := uncons_of_length l3 11 h3
  obtain ⟨a5, l5, he5, h5⟩ := uncons_of_length l4 10 h4
  obtain ⟨a6, l6, he6, h6⟩ := uncons_of_length l5 9 h5
  obtain ⟨a7, l7, he7, h7⟩ := uncons_of_length l6 8 h6
  obtain ⟨a8, l8, he8, h8⟩ := uncons_of_length l7 7 h7
  obtain ⟨a9, l9, he9, h9⟩ := uncons_of_length l8 6 h8
  obtain ⟨a10, l10, he10, h10⟩ := uncons_of_length l9 5 h9
  obtain ⟨a11, l11, he11, h11⟩ := uncons_of_length l10 4 h10
  obtain ⟨a12, l12, he12, h12⟩ := uncons_of_length l11 3 h11
  obtain ⟨a13, l13, he13, h13⟩ := uncons_of_length l12 2 h12
  obtain ⟨a14, l14, he14, h14⟩ := uncons_of_length l13 1 h13
  obtain ⟨a15, l15, he15, h15⟩ := uncons_of_length l14 0 h14
  rw [List.length_eq_zero] at h15
  subst h15
  exact ⟨a0, a1, a2, a3, a4, a5, a6, a7, a8, a9, a10, a11, a12, a13, a14, a15, by
    rw [he0, he1, he2, he3, he4, he5, he6, he7, he8, he9, he10, he11, he12, he13, he14, he15]⟩

/-- All 16 bytes of a UUID are below 256 (Go's `[16]byte` content). -/
def uuidValid (u : UUID) : Prop := ∀ b ∈ u.val, b < 256

instance (u : UUID) : Decidable (uuidValid u) :=
  inferInstanceAs (Decidable (∀ b ∈ u.val, b < 256))

/-- C1: parsing the canonical string of any identifier (all byte values,
including Nil) recovers it byte-identically, with no scan error. -/
theorem c1_roundtrip (x : UUID) (h : uuidValid x) :
    parseUUID (uuidToString x) = (x, false) := by
  have hb : ∀ i, FmtItem.verb i ∈ goFmt → getByte x i < 256 := by
    intro i hi
    have hilt : i < 16 := by
      simp only [goFmt, List.mem_cons, List.not_mem_nil, or_false] at hi
      rcases hi with h | h | h | h | h | h | h | h | h | h | h | h | h | h | h | h | h | h | h | h <;>
        first
          | (cases h; omega)
          | (exact absurd h (by simp))
    have hlen : i < x.val.length := by rw [x.property]; exact hilt
    have : getByte x i = x.val[i] := by
      simp [getByte, List.getD_eq_getElem?_getD, List.getElem?_eq_getElem hlen]
    rw [this]
    exact h _ (List.getElem_mem _)
  have hscan := sscanf_renderFmt x goFmt NilUUID hb
  show sscanfGo NilUUID (renderFmt x goFmt) goFmt = (x, false)
  rw [hscan]
  refine congrArg (fun z => (z, false)) ?_
  obtain ⟨a0, a1, a2, a3, a4, a5, a6, a7, a8, a9, a10, a11, a12, a13, a14, a15, hx⟩ :=
    exists_sixteen x.val x.property
  apply Subtype.ext
  show (writeFmt NilUUID x goFmt).val = x.val
  simp only [goFmt, writeFmt, setByte, getByte, NilUUID, hx]
  rfl

/-- Witness for C1 at the Nil identifier. -/
theorem c1_roundtrip_witness :
    uuidValid NilUUID ∧ parseUUID (uuidToString NilUUID) = (NilUUID, false) :=
  ⟨by decide, c1_roundtrip NilUUID (by decide)⟩

/-- C3 counterexample: an uppercase rendition deviates from the canonical
pattern (it is not 32 *lowercase* hex digits), yet `Parse` succeeds on it,
so `Parse` does not accept *exactly* the canonical pattern. -/
theorem c3_counterexample :
    isCanonicalUUIDString "D1723894-5FE7-11E7-907B-A6006AD3DBA0" = false ∧
    (parseUUID "D1723894-5FE7-11E7-907B-A6006AD3DBA0").2 = false := by
  constructor
  · decide
  · decide

/-- C3 (amended): every string matching the canonical 36-character pattern
parses successfully, and a string with a non-hex character at a digit
position, such as "not-a-uuid", fails; but the set of accepted strings is
strictly larger than the canonical pattern (see the counterexample). -/
theorem c3_parse_amended (u : UUID) (s : String)
    (h : isCanonicalUUIDString s = true) :
    (uuidParseInto u s).2 = false ∧ (uuidParseInto u "not-a-uuid").2 = true := by
  constructor
  · exact sscanf_canonical goFmt u s.data h
  · rfl

/-- Witness for the amended C3 at a concrete canonical string. -/
theorem c3_parse_amended_witness :
    isCanonicalUUIDString "d1723894-5fe7-11e7-907b-a6006ad3dba0" = true ∧
    (uuidParseInto NilUUID "d1723894-5fe7-11e7-907b-a6006ad3dba0").2 = false :=
  ⟨by decide, (c3_parse_amended NilUUID "d1723894-5fe7-11e7-907b-a6006ad3dba0" (by decide)).1⟩

/-- C4 is violated by the source: on the failing input
"ffffffff-not-a-uuid" the scanner has already written the first four
operand bytes (0xff each) into the output identifier before the scan error,
so the output is not left unmutated. -/
theorem c4_parse_partial_mutation :
    (parseUUID "ffffffff-not-a-uuid").2 = true ∧
    (parseUUID "ffffffff-not-a-uuid").1.val =
      [255, 255, 255, 255, 0, 0, 0, 0, 0, 0, 0, 0, 0, 0, 0, 0] ∧
    (parseUUID "ffffffff-not-a-uuid").1 ≠ NilUUID := by
  refine ⟨by decide, by decide, by decide⟩

/-! ### MD5 and SHA-1

Modelled from the spec: the source hashes with Go's `crypto/md5` and
`crypto/sha1`, whose code is not part of this repository; the spec says
"hash with MD5 (v3) or SHA-1 (v5)".  The two digest functions are embedded
here in full (RFC 1321 / FIPS 180 as implemented by those packages), over
byte lists, with 32-bit arithmetic made explicit. -/

/-- 32-bit wrapping addition. -/
def add32 (a b : Nat) : Nat := (a + b) % 4294967296

/-- 32-bit left rotation (for values below `2^32`). -/
def rotl32 (x n : Nat) : Nat := ((x <<< n) ||| (x >>> (32 - n))) % 4294967296

/-- 32-bit complement (for values below `2^32`). -/
def not32 (x : Nat) : Nat := 4294967295 ^^^ x

/-- Little-endian 32-bit words from bytes. -/
def toWordsLE : List Nat → List Nat
  | b0 :: b1 :: b2 :: b3 :: rest =>
    (b0 + (b1 <<< 8) + (b2 <<< 16) + (b3 <<< 24)) :: toWordsLE rest
  | _ => []

/-- Big-endian 32-bit words from bytes. -/
def toWordsBE : List Nat → List Nat
  | b0 :: b1 :: b2 :: b3 :: rest =>
    ((b0 <<< 24) + (b1 <<< 16) + (b2 <<< 8) + b3) :: toWordsBE rest
  | _ => []

/-- A 32-bit word as 4 little-endian bytes. -/
def wordBytesLE (x : Nat) : List Nat :=
  [x % 256, (x >>> 8) % 256, (x >>> 16) % 256, (x >>> 24) % 256]

/-- A 32-bit word as 4 big-endian bytes. -/
def wordBytesBE (x : Nat) : List Nat :=
  [(x >>> 24) % 256, (x >>> 16) % 256, (x >>> 8) % 256, x % 256]

/-- A 64-bit value as 8 little-endian bytes (MD5 length field). -/
def lenBytesLE (n : Nat) : List Nat :=
  [n % 256, (n >>> 8) % 256, (n >>> 16) % 256, (n >>> 24) % 256,
   (n >>> 32) % 256, (n >>> 40) % 256, (n >>> 48) % 256, (n >>> 56) % 256]

/-- A 64-bit value as 8 big-endian bytes (SHA-1 length field). -/
def lenBytesBE (n : Nat) : List Nat :=
  [(n >>> 56) % 256, (n >>> 48) % 256, (n >>> 40) % 256, (n >>> 32) % 256,
   (n >>> 24) % 256, (n >>> 16) % 256, (n >>> 8) % 256, n % 256]

/-- Merkle-Damgard padding: `0x80`, zeros to 56 mod 64, then the 8-byte
bit length. -/
def padTail (msgLen : Nat) (lenField : List Nat) : List Nat :=
  let r := (msgLen + 1) % 64
  128 :: List.replicate ((56 + 64 - r) % 64) 0 ++ lenField

/-- Split into 64-byte blocks. -/
def chunksOf64 (l : List Nat) : List (List Nat) := go l.length l
where
  go : Nat → List Nat → List (List Nat)
    | 0, _ => []
    | _, [] => []
    | n + 1, l => l.take 64 :: go n (l.drop 64)

/-- The 64 MD5 sine-table constants. -/
def md5K : List Nat :=
  [0xd76aa478, 0xe8c7b756, 0x242070db, 0xc1bdceee,
   0xf57c0faf, 0x4787c62a, 0xa8304613, 0xfd469501,
   0x698098d8, 0x8b44f7af, 0xffff5bb1, 0x895cd7be,
   0x6b901122, 0xfd987193, 0xa679438e, 0x49b40821,
   0xf61e2562, 0xc040b340, 0x265e5a51, 0xe9b6c7aa,
   0xd62f105d, 0x02441453, 0xd8a1e681, 0xe7d3fbc8,
   0x21e1cde6, 0xc33707d6, 0xf4d50d87, 0x455a14ed,
   0xa9e3e905, 0xfcefa3f8, 0x676f02d9, 0x8d2a4c8a,
   0xfffa3942, 0x8771f681, 0x6d9d6122, 0xfde5380c,
   0xa4beea44, 0x4bdecfa9, 0xf6bb4b60, 0xbebfbc70,
   0x289b7ec6, 0xeaa127fa, 0xd4ef3085, 0x04881d05,
   0xd9d4d039, 0xe6db99e5, 0x1fa27cf8, 0xc4ac5665,
   0xf4292244, 0x432aff97, 0xab9423a7, 0xfc93a039,
   0x655b59c3, 0x8f0ccc92, 0xffeff47d, 0x85845dd1,
   0x6fa87e4f, 0xfe2ce6e0, 0xa3014314, 0x4e0811a1,
   0xf7537e82, 0xbd3af235, 0x2ad7d2bb, 0xeb86d391]

/-- The MD5 per-round left-rotation amounts. -/
def md5S : List Nat :=
  [7, 12, 17, 22, 7, 12, 17, 22, 7, 12, 17, 22, 7, 12, 17, 22,
   5, 9, 14, 20, 5, 9, 14, 20, 5, 9, 14, 20, 5, 9, 14, 20,
   4, 11, 16, 23, 4, 11, 16, 23, 4, 11, 16, 23, 4, 11, 16, 23,
   6, 10, 15, 21, 6, 10, 15, 21, 6, 10, 15, 21, 6, 10, 15, 21]

/-- The MD5 round functions F, G, H, I. -/
def md5F (i b c d : Nat) : Nat :=
  if i < 16 then (b &&& c) ||| (not32 b &&& d)
  else if i < 32 then (d &&& b) ||| (not32 d &&& c)
  else if i < 48 then b ^^^ c ^^^ d
  else c ^^^ (b ||| not32 d)

/-- The MD5 message-word index for round `i`. -/
def md5G (i : Nat) : Nat :=
  if i < 16 then i
  else if i < 32 then (5 * i + 1) % 16
  else if i < 48 then (3 * i + 5) % 16
  else (7 * i) % 16

/-- One MD5 round. -/
def md5Step (m : List Nat) (st : Nat × Nat × Nat × Nat) (i : Nat) : Nat × Nat × Nat × Nat :=
  let (a, b, c, d) := st
  let f := add32 (add32 (add32 a (md5F i b c d)) (md5K.getD i 0)) (m.getD (md5G i) 0)
  (d, add32 b (rotl32 f (md5S.getD i 0)), b, c)

/-- Process one 64-byte block. -/
def md5Block (st : Nat × Nat × Nat × Nat) (block : List Nat) : Nat × Nat × Nat × Nat :=
  let m := toWordsLE block
  let f := (List.range 64).foldl (md5Step m) st
  (add32 st.1 f.1, add32 st.2.1 f.2.1, add32 st.2.2.1 f.2.2.1, add32 st.2.2.2 f.2.2.2)

/-- The MD5 digest (16 bytes) of a byte list. -/
def md5 (msg : List Nat) : List Nat :=
  let padded := msg ++ padTail msg.length (lenBytesLE ((8 * msg.length) % 18446744073709551616))
  let st := (chunksOf64 padded).foldl md5Block (0x67452301, 0xefcdab89, 0x98badcfe, 0x10325476)
  wordBytesLE st.1 ++ wordBytesLE st.2.1 ++ wordBytesLE st.2.2.1 ++ wordBytesLE st.2.2.2

theorem md5_length (msg : List Nat) : (md5 msg).length = 16 := by
  simp [md5, wordBytesLE]

/-- The SHA-1 round functions. -/
def sha1F (i b c d : Nat) : Nat :=
  if i < 20 then (b &&& c) ||| (not32 b &&& d)
  else if i < 40 then b ^^^ c ^^^ d
  else if i < 60 then (b &&& c) ||| (b &&& d) ||| (c &&& d)
  else b ^^^ c ^^^ d

/-- The SHA-1 round constants. -/
def sha1K (i : Nat) : Nat :=
  if i < 20 then 0x5a827999
  else if i < 40 then 0x6ed9eba1
  else if i < 60 then 0x8f1bbcdc
  else 0xca62c1d6

/-- The 80-word SHA-1 message schedule from the 16 block words.  The
accumulator holds the words generated so far, most recent first. -/
def sha1W (m : List Nat) : List Nat := go 80 []
where
  go : Nat → List Nat → List Nat
    | 0, acc => acc.reverse
    | n + 1, acc =>
      let i := 80 - (n + 1)
      let w := if i < 16 then m.getD i 0
               else rotl32 (acc.getD 2 0 ^^^ acc.getD 7 0 ^^^ acc.getD 13 0 ^^^ acc.getD 15 0) 1
      go n (w :: acc)

/-- One SHA-1 round. -/
def sha1Step (w : List Nat) (st : Nat × Nat × Nat × Nat × Nat) (i : Nat) :
    Nat × Nat × Nat × Nat × Nat :=
  let (a, b, c, d, e) := st
  let t := add32 (add32 (add32 (add32 (rotl32 a 5) (sha1F i b c d)) e) (sha1K i)) (w.getD i 0)
  (t, a, rotl32 b 30, c, d)

/-- Process one 64-byte block. -/
def sha1Block (st : Nat × Nat × Nat × Nat × Nat) (block : List Nat) :
    Nat × Nat × Nat × Nat × Nat :=
  let w := sha1W (toWordsBE block)
  let f := (List.range 80).foldl (sha1Step w) st
  (add32 st.1 f.1, add32 st.2.1 f.2.1, add32 st.2.2.1 f.2.2.1,
   add32 st.2.2.2.1 f.2.2.2.1, add32 st.2.2.2.2 f.2.2.2.2)

/-- The SHA-1 digest (20 bytes) of a byte list. -/
def sha1 (msg : List Nat) : List Nat :=
  let padded := msg ++ padTail msg.length (lenBytesBE ((8 * msg.length) % 18446744073709551616))
  let st := (chunksOf64 padded).foldl sha1Block
    (0x67452301, 0xefcdab89, 0x98badcfe, 0x10325476, 0xc3d2e1f0)
  wordBytesBE st.1 ++ wordBytesBE st.2.1 ++ wordBytesBE st.2.2.1 ++
    wordBytesBE st.2.2.2.1 ++ wordBytesBE st.2.2.2.2

theorem sha1_length (msg : List Nat) : (sha1 msg).length = 20 := by
  simp [sha1, wordBytesBE]

/-- MD5 test vector: `md5("") = d41d8cd98f00b204e9800998ecf8427e`. -/
theorem md5_empty_vector :
    md5 [] = [0xd4, 0x1d, 0x8c, 0xd9, 0x8f, 0x00, 0xb2, 0x04,
              0xe9, 0x80, 0x09, 0x98, 0xec, 0xf8, 0x42, 0x7e] := by
  decide

/-- MD5 test vector: `md5("abc") = 900150983cd24fb0d6963f7d28e17f72`. -/
theorem md5_abc_vector :
    md5 [97, 98, 99] = [0x90, 0x01, 0x50, 0x98, 0x3c, 0xd2, 0x4f, 0xb0,
                        0xd6, 0x96, 0x3f, 0x7d, 0x28, 0xe1, 0x7f, 0x72] := by
  decide

/-- SHA-1 test vector: `sha1("abc") = a9993e364706816aba3e25717850c26c9cd0d89d`. -/
theorem sha1_abc_vector :
    sha1 [97, 98, 99] = [0xa9, 0x99, 0x3e, 0x36, 0x47, 0x06, 0x81, 0x6a,
                         0xba, 0x3e, 0x25, 0x71, 0x78, 0x50, 0xc2, 0x6c,
                         0x9c, 0xd0, 0xd8, 0x9d] := by
  decide

/-! ### Name-based generators (v3 / v5) -/

/-- `type Namespace UUID` (src/unnamed/part_000): "A Namespace is actually
a special UUID" — the same 16-byte representation, so it carries the same
`[16]byte` length invariant; the Go field access `ns.u[:]` is `ns.val`
here. -/
abbrev Namespace : Type := UUID

/-- `Namespace_DNS` (src/unnamed/part_000): name string is a
fully-qualified domain name. -/
def Namespace_DNS : Namespace :=
  ⟨[0x6b, 0xa7, 0xb8, 0x10, 0x9d, 0xad, 0x11, 0xd1,
    0x80, 0xb4, 0x00, 0xc0, 0x4f, 0xd4, 0x30, 0xc8], by decide⟩

/-- `Namespace_URL` (src/unnamed/part_000): name string is a URL. -/
def Namespace_URL : Namespace :=
  ⟨[0x6b, 0xa7, 0xb8, 0x11, 0x9d, 0xad, 0x11, 0xd1,
    0x80, 0xb4, 0x00, 0xc0, 0x4f, 0xd4, 0x30, 0xc8], by decide⟩

/-- `Namespace_OID` (src/unnamed/part_000): name string is an ISO OID. -/
def Namespace_OID : Namespace :=
  ⟨[0x6b, 0xa7, 0xb8, 0x12, 0x9d, 0xad, 0x11, 0xd1,
    0x80, 0xb4, 0x00, 0xc0, 0x4f, 0xd4, 0x30, 0xc8], by decide⟩

/-- `Namespace_X500` (src/unnamed/part_000): name string is an X.500 DN. -/
def Namespace_X500 : Namespace :=
  ⟨[0x6b, 0xa7, 0xb8, 0x14, 0x9d, 0xad, 0x11, 0xd1,
    0x80, 0xb4, 0x00, 0xc0, 0x4f, 0xd4, 0x30, 0xc8], by decide⟩

/-- `UUID.GenerateV3`: no-op when the name is empty; otherwise write the MD5
of namespace bytes followed by name bytes into the identifier (`h.Write`
twice then `copy(u.u[:], h.Sum(nil))`), then overwrite version and variant
bits. -/
def generateV3 (u : UUID) (ns : Namespace) (name : List Nat) : UUID :=
  if ns.val.length ≠ 16 ∨ name.length = 0 then u
  else
    let digest := md5 (ns.val ++ name)
    let u1 : UUID := ⟨goCopy u.val digest, by rw [goCopy_length]; exact u.property⟩
    let u2 := setByte u1 6 ((getByte u1 6 &&& 0x0f) ||| 0x30)
    setByte u2 8 ((getByte u2 8 &&& 0x3f) ||| 0x80)

/-- `UUID.GenerateV5`: as v3 but SHA-1; `copy` takes only the first 16 of
the 20 digest bytes; version nibble `0101`. -/
def generateV5 (u : UUID) (ns : Namespace) (name : List Nat) : UUID :=
  if ns.val.length ≠ 16 ∨ name.length = 0 then u
  else
    let digest := sha1 (ns.val ++ name)
    let u1 : UUID := ⟨goCopy u.val digest, by rw [goCopy_length]; exact u.property⟩
    let u2 := setByte u1 6 ((getByte u1 6 &&& 0x0f) ||| 0x50)
    setByte u2 8 ((getByte u2 8 &&& 0x3f) ||| 0x80)

/-- The spec's words for the byte overwrites shared by v3 and v5: version
nibble of byte 6 set to `ver`, top 2 bits of byte 8 set to `10`. -/
def overwriteVersionVariant (l : List Nat) (ver : Nat) : List Nat :=
  let l1 := l.set 6 ((l.getD 6 0 &&& 0x0f) ||| (ver <<< 4))
  l1.set 8 ((l1.getD 8 0 &&& 0x3f) ||| 0x80)

theorem overwriteVersionVariant_length (l : List Nat) (ver : Nat) :
    (overwriteVersionVariant l ver).length = l.length := by
  simp [overwriteVersionVariant]

/-- The spec's v3 algorithm, stated from its words: first 16 bytes of
`MD5(ns ++ name)` with version nibble `0011` and variant bits `10`. -/
def specV3 (ns : Namespace) (name : List Nat) : UUID :=
  ⟨overwriteVersionVariant ((md5 (ns.val ++ name)).take 16) 3, by
    rw [overwriteVersionVariant_length]
    simp [md5_length]⟩

/-- The spec's v5 algorithm, stated from its words: first 16 of the 20
bytes of `SHA1(ns ++ name)` with version nibble `0101` and variant bits
`10`. -/
def specV5 (ns : Namespace) (name : List Nat) : UUID :=
  ⟨overwriteVersionVariant ((sha1 (ns.val ++ name)).take 16) 5, by
    rw [overwriteVersionVariant_length]
    simp [sha1_length]⟩

theorem goCopy_eq_take (dst src : List Nat) (hd : dst.length = 16) (hs : 16 ≤ src.length) :
    goCopy dst src = src.take 16 := by
  have hdrop : dst.drop 16 = [] := by
    apply List.eq_nil_of_length_eq_zero
    simp [hd]
  simp [goCopy, hd, Nat.min_eq_left hs, hdrop]

/-- GenerateV3 with a 16-byte namespace and non-empty name equals the
spec's MD5 construction, for every receiver. -/
theorem generateV3_eq_specV3 (ns : Namespace) (name : List Nat)
    (hname : name ≠ []) (u : UUID) :
    generateV3 u ns name = specV3 ns name := by
  have hcond : ¬ (ns.val.length ≠ 16 ∨ name.length = 0) := by
    push_neg
    exact ⟨ns.property, by simpa using hname⟩
  apply Subtype.ext
  show (generateV3 u ns name).val = (specV3 ns name).val
  rw [generateV3, if_neg hcond]
  have hcopy : goCopy u.val (md5 (ns.val ++ name)) = (md5 (ns.val ++ name)).take 16 :=
    goCopy_eq_take _ _ u.property (by rw [md5_length])
  simp only [setByte, getByte, specV3, overwriteVersionVariant, hcopy]
  norm_num [Nat.shiftLeft_eq]

/-- GenerateV5 with a 16-byte namespace and non-empty name equals the
spec's SHA-1 construction, for every receiver. -/
theorem generateV5_eq_specV5 (ns : Namespace) (name : List Nat)
    (hname : name ≠ []) (u : UUID) :
    generateV5 u ns name = specV5 ns name := by
  have hcond : ¬ (ns.val.length ≠ 16 ∨ name.length = 0) := by
    push_neg
    exact ⟨ns.property, by simpa using hname⟩
  apply Subtype.ext
  show (generateV5 u ns name).val = (specV5 ns name).val
  rw [generateV5, if_neg hcond]
  have hcopy : goCopy u.val (sha1 (ns.val ++ name)) = (sha1 (ns.val ++ name)).take 16 :=
    goCopy_eq_take _ _ u.property (by rw [sha1_length]; omega)
  simp only [setByte, getByte, specV5, overwriteVersionVariant, hcopy]
  norm_num [Nat.shiftLeft_eq]

/-- C5: for every 16-byte namespace and non-empty name, GenerateV3 equals
the spec's MD5 construction and GenerateV5 the spec's SHA-1 construction,
and both are pure functions of `(ns, name)` (the receiver is irrelevant,
so repeated calls with identical inputs give byte-identical output). -/
theorem c5_name_based_hash (ns : Namespace) (name : List Nat)
    (hname : name ≠ []) :
    ∀ u u' : UUID,
      generateV3 u ns name = specV3 ns name ∧
      generateV5 u ns name = specV5 ns name ∧
      generateV3 u ns name = generateV3 u' ns name ∧
      generateV5 u ns name = generateV5 u' ns name := by
  intro u u'
  refine ⟨generateV3_eq_specV3 ns name hname u, generateV5_eq_specV5 ns name hname u,
    ?_, ?_⟩
  · rw [generateV3_eq_specV3 ns name hname u, generateV3_eq_specV3 ns name hname u']
  · rw [generateV5_eq_specV5 ns name hname u, generateV5_eq_specV5 ns name hname u']

/-- Witness for C5 at the DNS namespace and the name "python.org". -/
theorem c5_name_based_hash_witness :
    ([112, 121, 116, 104, 111, 110, 46, 111, 114, 103] : List Nat) ≠ [] ∧
    generateV3 NilUUID Namespace_DNS [112, 121, 116, 104, 111, 110, 46, 111, 114, 103] =
      specV3 Namespace_DNS [112, 121, 116, 104, 111, 110, 46, 111, 114, 103] :=
  ⟨by decide,
    (c5_name_based_hash Namespace_DNS _ (by decide) NilUUID NilUUID).1⟩

/-- End-to-end test vector: the version-3 UUID of "python.org" in the DNS
namespace is `6fa459ea-ee8a-3ca4-894e-db77e160355e`. -/
theorem generateV3_python_vector :
    uuidToString (generateV3 NilUUID Namespace_DNS
      [112, 121, 116, 104, 111, 110, 46, 111, 114, 103]) =
      "6fa459ea-ee8a-3ca4-894e-db77e160355e" := by
  decide

/-- End-to-end test vector: the version-5 UUID of "python.org" in the DNS
namespace is `886313e1-3b8a-5372-9b90-0c9aee199e5d`. -/
theorem generateV5_python_vector :
    uuidToString (generateV5 NilUUID Namespace_DNS
      [112, 121, 116, 104, 111, 110, 46, 111, 114, 103]) =
      "886313e1-3b8a-5372-9b90-0c9aee199e5d" := by
  decide

/-- C7: calling GenerateV3 or GenerateV5 with the empty name is a no-op
that leaves the receiver identifier entirely unchanged, for every receiver
and namespace; being a pure function of its arguments, the same call on the
same state always has the same effect. -/
theorem c7_empty_name_noop (u : UUID) (ns : Namespace) :
    generateV3 u ns [] = u ∧ generateV5 u ns [] = u := by
  constructor
  · rw [generateV3, if_pos (by simp)]
  · rw [generateV5, if_pos (by simp)]

/-! ### Time-based generator (v1) and random generator (v4)

The package-wide mutable state (`lastTime`, `clockSeq`, `nodeId`), written
only under the mutex, is made an explicit state value; the wall clock
(`time.Now().UTC().UnixNano()`) and the random source are universally
quantified inputs.  Go's signed 64-bit shifts of the timestamp are embedded
through its two's-complement 64-bit bit pattern: for any masked extraction
of bits `k..k+m` (with `k + m < 64`), `int64` arithmetic shift right by `k`
followed by the mask gives exactly those bits of the pattern. -/

/-- The package-wide generation state: `lastTime`, `clockSeq`, `nodeId`. -/
structure GenState where
  lastTime : Int
  clockSeq : Nat
  nodeId : List Nat

/-- `initNodeId`: read 6 random bytes `r`, then `nodeId[5] |= 1`. -/
def initNodeId (r : List Nat) : List Nat := r.set 5 (r.getD 5 0 ||| 1)

/-- `initClockSeq`: read 2 random bytes, combine big-endian, keep 14 bits. -/
def initClockSeq (c0 c1 : Nat) : Nat := ((c1 + (c0 <<< 8) % 65536) % 65536) &&& 0x3FFF

/-- The two's-complement 64-bit bit pattern of an `int64` value. -/
def toUInt64bits (ts : Int) : Nat := (Int.emod ts 18446744073709551616).toNat

/-- `getTimestampV1` (the authoritative draft, which also updates the
state): the 100ns-tick UUID-epoch timestamp; when it is not strictly
greater than `lastTime`, `clockSeq` is incremented (14 bits, `uint16`
wraparound); `lastTime` is then set to it. -/
def getTimestampV1 (st : GenState) (now : Int) : Int × GenState :=
  let t := Int.tdiv now 100 + 122192928000000000
  let st1 := if t ≤ st.lastTime
             then { st with clockSeq := ((st.clockSeq + 1) % 65536) &&& 0x3FFF }
             else st
  (t, { st1 with lastTime := t })

/-- Write the node id into bytes 10-15: `copy(u.u[10:], nodeId[:])`. -/
def setNodeField (u : UUID) (nid : List Nat) : UUID :=
  ⟨u.val.take 10 ++ goCopy (u.val.drop 10) nid, by simp [goCopy_length, u.property]⟩

/-- The timestamp / version / clock-sequence byte assignments of
`UUID.GenerateV1` (everything up to the node-field copy): bytes 0-3 from
the low 32 timestamp bits, 4-5 from bits 32-47, 6-7 from bits 48-59 with
version nibble `0001`, 8-9 from the post-bump clock sequence with variant
bits `10`. -/
def v1TimeBytes (st : GenState) (now : Int) (u : UUID) : UUID :=
  let ts := (getTimestampV1 st now).1
  let st' := (getTimestampV1 st now).2
  let w := toUInt64bits ts
  let u0 := setByte u 0 (((w % 4294967296) >>> 24) % 256)
  let u1 := setByte u0 1 (((w % 4294967296) >>> 16) % 256)
  let u2 := setByte u1 2 (((w % 4294967296) >>> 8) % 256)
  let u3 := setByte u2 3 ((w % 4294967296) % 256)
  let t16 := (w >>> 32) &&& 0xFFFF
  let u4 := setByte u3 4 ((t16 >>> 8) % 256)
  let u5 := setByte u4 5 (t16 % 256)
  let t2 := ((w >>> 48) &&& 0x0FFF) ||| 0x1000
  let u6 := setByte u5 6 ((t2 >>> 8) % 256)
  let u7 := setByte u6 7 (t2 % 256)
  let cs := (st'.clockSeq &&& 0x3fff) ||| 0x8000
  let u8 := setByte u7 8 ((cs >>> 8) % 256)
  setByte u8 9 (cs % 256)

/-- `UUID.GenerateV1`: update the state (inside `getTimestampV1`), pack the
timestamp and clock-sequence bytes, and copy the node id into bytes 10-15. -/
def generateV1 (st : GenState) (now : Int) (u : UUID) : GenState × UUID :=
  let st' := (getTimestampV1 st now).2
  (st', setNodeField (v1TimeBytes st now u) st'.nodeId)

/-- `UUID.GenerateV4`: fill all 16 bytes from the random source `r`, then
overwrite the version nibble to `0100` and the variant bits to `10`. -/
def generateV4 (u : UUID) (r : List Nat) : UUID :=
  let u0 : UUID := ⟨goCopy u.val r, by rw [goCopy_length]; exact u.property⟩
  let u1 := setByte u0 6 ((getByte u0 6 &&& 0x0f) ||| 0x40)
  setByte u1 8 ((getByte u1 8 &&& 0x3f) ||| 0x80)

/-! Bounded bit-level facts used for the version/variant invariants. -/

theorem nibble_or_48 : ∀ y < 16, (y ||| 48) >>> 4 = 3 := by decide

theorem nibble_or_64 : ∀ y < 16, (y ||| 64) >>> 4 = 4 := by decide

theorem nibble_or_80 : ∀ y < 16, (y ||| 80) >>> 4 = 5 := by decide

theorem variant_or_128 : ∀ y < 64, (y ||| 128) >>> 6 = 2 := by decide

theorem shiftRight_lor_distrib (a b : Nat) : ∀ n, (a ||| b) >>> n = (a >>> n) ||| (b >>> n) := by
  intro n
  induction n with
  | zero => rfl
  | succ n ih =>
    rw [Nat.shiftRight_succ, Nat.shiftRight_succ, Nat.shiftRight_succ, ih, Nat.or_div_two]

theorem or16_shift : ∀ q < 16, (q ||| 16) >>> 4 = 1 := by decide

theorem or128_shift : ∀ q < 64, (q ||| 128) >>> 6 = 2 := by decide

/-- Byte 6 of a v1 identifier: the high byte of
`(ts >> 48) & 0x0FFF | 0x1000` always has version nibble 1. -/
theorem v1_version_byte (y : Nat) (h : y < 4096) :
    (((y ||| 4096) >>> 8) % 256) >>> 4 = 1 := by
  have hq : y >>> 8 < 16 := by
    rw [Nat.shiftRight_eq_div_pow]
    exact (Nat.div_lt_iff_lt_mul (by norm_num)).mpr (by omega)
  rw [shiftRight_lor_distrib]
  have h16 : (4096 : Nat) >>> 8 = 16 := by decide
  rw [h16]
  have hlt : (y >>> 8) ||| 16 < 256 := by
    have h2 : (2 : Nat) ^ 8 = 256 := by norm_num
    have := @Nat.or_lt_two_pow (y >>> 8) 16 8 (by omega) (by omega)
    omega
  rw [Nat.mod_eq_of_lt hlt]
  exact or16_shift _ hq

/-- Byte 8 of a v1 identifier: the high byte of
`clockSeq & 0x3fff | 0x8000` always has variant bits `10`. -/
theorem v1_variant_byte (y : Nat) (h : y < 16384) :
    (((y ||| 32768) >>> 8) % 256) >>> 6 = 2 := by
  have hq : y >>> 8 < 64 := by
    rw [Nat.shiftRight_eq_div_pow]
    exact (Nat.div_lt_iff_lt_mul (by norm_num)).mpr (by omega)
  rw [shiftRight_lor_distrib]
  have h128 : (32768 : Nat) >>> 8 = 128 := by decide
  rw [h128]
  have hlt : (y >>> 8) ||| 128 < 256 := by
    have h2 : (2 : Nat) ^ 8 = 256 := by norm_num
    have := @Nat.or_lt_two_pow (y >>> 8) 128 8 (by omega) (by omega)
    omega
  rw [Nat.mod_eq_of_lt hlt]
  exact or128_shift _ hq

/-! ### Version / variant invariants -/

theorem overwrite_getD6 (l : List Nat) (hl : l.length = 16) (v : Nat) :
    (overwriteVersionVariant l v).getD 6 0 = (l.getD 6 0 &&& 15) ||| (v <<< 4) := by
  obtain ⟨a0, a1, a2, a3, a4, a5, a6, a7, a8, a9, a10, a11, a12, a13, a14, a15, h⟩ :=
    exists_sixteen l hl
  subst h
  rfl

theorem overwrite_getD8 (l : List Nat) (hl : l.length = 16) (v : Nat) :
    (overwriteVersionVariant l v).getD 8 0 = (l.getD 8 0 &&& 63) ||| 128 := by
  obtain ⟨a0, a1, a2, a3, a4, a5, a6, a7, a8, a9, a10, a11, a12, a13, a14, a15, h⟩ :=
    exists_sixteen l hl
  subst h
  rfl

/-- Version and variant of the spec-side v3 value. -/
theorem specV3_version_variant (ns : Namespace) (name : List Nat) :
    uuidVersion (specV3 ns name) = 3 ∧ variantBits (specV3 ns name) = 2 := by
  have hlen : ((md5 (ns.val ++ name)).take 16).length = 16 := by simp [md5_length]
  constructor
  · show (specV3 ns name).val.getD 6 0 >>> 4 = 3
    rw [show (specV3 ns name).val = overwriteVersionVariant ((md5 (ns.val ++ name)).take 16) 3
        from rfl]
    rw [overwrite_getD6 _ hlen]
    rw [show (3 : Nat) <<< 4 = 48 from by decide]
    exact nibble_or_48 _ (by have := @Nat.and_le_right ((md5 (ns.val ++ name)).take 16 |>.getD 6 0) 15; omega)
  · show (specV3 ns name).val.getD 8 0 >>> 6 = 2
    rw [show (specV3 ns name).val = overwriteVersionVariant ((md5 (ns.val ++ name)).take 16) 3
        from rfl]
    rw [overwrite_getD8 _ hlen]
    exact variant_or_128 _ (by have := @Nat.and_le_right ((md5 (ns.val ++ name)).take 16 |>.getD 8 0) 63; omega)

/-- Version and variant of the spec-side v5 value. -/
theorem specV5_version_variant (ns : Namespace) (name : List Nat) :
    uuidVersion (specV5 ns name) = 5 ∧ variantBits (specV5 ns name) = 2 := by
  have hlen : ((sha1 (ns.val ++ name)).take 16).length = 16 := by simp [sha1_length]
  constructor
  · show (specV5 ns name).val.getD 6 0 >>> 4 = 5
    rw [show (specV5 ns name).val = overwriteVersionVariant ((sha1 (ns.val ++ name)).take 16) 5
        from rfl]
    rw [overwrite_getD6 _ hlen]
    rw [show (5 : Nat) <<< 4 = 80 from by decide]
    exact nibble_or_80 _ (by have := @Nat.and_le_right ((sha1 (ns.val ++ name)).take 16 |>.getD 6 0) 15; omega)
  · show (specV5 ns name).val.getD 8 0 >>> 6 = 2
    rw [show (specV5 ns name).val = overwriteVersionVariant ((sha1 (ns.val ++ name)).take 16) 5
        from rfl]
    rw [overwrite_getD8 _ hlen]
    exact variant_or_128 _ (by have := @Nat.and_le_right ((sha1 (ns.val ++ name)).take 16 |>.getD 8 0) 63; omega)

/-- A v4 generation is exactly the version/variant overwrite of the 16
random bytes. -/
theorem generateV4_val (u : UUID) (r : List Nat) (hr : r.length = 16) :
    (generateV4 u r).val = overwriteVersionVariant r 4 := by
  have hcopy : goCopy u.val r = r := by
    rw [goCopy_eq_take u.val r u.property (by omega)]
    rw [← hr]
    exact List.take_length r
  simp only [generateV4, setByte, getByte, overwriteVersionVariant, hcopy]
  norm_num [Nat.shiftLeft_eq]

/-- Byte 6 of the v1 time-byte packing, for any receiver. -/
theorem v1TimeBytes_byte6 (st : GenState) (now : Int) (u : UUID) :
    getByte (v1TimeBytes st now u) 6 =
      ((((toUInt64bits ((getTimestampV1 st now).1) >>> 48) &&& 4095) ||| 4096) >>> 8) % 256 := by
  obtain ⟨l, hl⟩ := u
  obtain ⟨b0, b1, b2, b3, b4, b5, b6, b7, b8, b9, b10, b11, b12, b13, b14, b15, h⟩ :=
    exists_sixteen l hl
  subst h
  rfl

/-- Byte 8 of the v1 time-byte packing, for any receiver. -/
theorem v1TimeBytes_byte8 (st : GenState) (now : Int) (u : UUID) :
    getByte (v1TimeBytes st now u) 8 =
      ((((getTimestampV1 st now).2.clockSeq &&& 16383) ||| 32768) >>> 8) % 256 := by
  obtain ⟨l, hl⟩ := u
  obtain ⟨b0, b1, b2, b3, b4, b5, b6, b7, b8, b9, b10, b11, b12, b13, b14, b15, h⟩ :=
    exists_sixteen l hl
  subst h
  rfl

/-- The node-field copy does not touch bytes 6 and 8. -/
theorem setNodeField_bytes68 (u : UUID) (nid : List Nat) :
    getByte (setNodeField u nid) 6 = getByte u 6 ∧
    getByte (setNodeField u nid) 8 = getByte u 8 := by
  obtain ⟨l, hl⟩ := u
  obtain ⟨b0, b1, b2, b3, b4, b5, b6, b7, b8, b9, b10, b11, b12, b13, b14, b15, h⟩ :=
    exists_sixteen l hl
  subst h
  exact ⟨rfl, rfl⟩

/-- The node-field copy puts exactly the 6 node-id bytes at positions
10-15. -/
theorem setNodeField_drop10 (u : UUID) (nid : List Nat) (h : nid.length = 6) :
    (setNodeField u nid).val.drop 10 = nid := by
  show (u.val.take 10 ++ goCopy (u.val.drop 10) nid).drop 10 = nid
  have hlen : (u.val.take 10).length = 10 := by simp [u.property]
  rw [List.drop_left' hlen]
  have hd : (u.val.drop 10).length = 6 := by simp [u.property]
  have h1 : nid.take 6 = nid := by
    rw [← h]
    exact List.take_length nid
  have h2 : (u.val.drop 10).drop 6 = [] := List.drop_of_length_le (by rw [hd])
  rw [goCopy, hd, h, Nat.min_self, h1, h2, List.append_nil]

/-- `getTimestampV1` never writes the node id. -/
theorem getTimestampV1_nodeId (st : GenState) (now : Int) :
    (getTimestampV1 st now).2.nodeId = st.nodeId := by
  unfold getTimestampV1
  by_cases h : Int.tdiv now 100 + 122192928000000000 ≤ st.lastTime
  · simp [h]
  · simp [h]

/-- C2 fails as stated "for every input": GenerateV3 with an empty name is
a silent no-op, so on a fresh zero identifier the version stays 0, not 3. -/
theorem c2_version_counterexample :
    uuidVersion (generateV3 NilUUID Namespace_DNS []) = 0 ∧
    ¬ uuidVersion (generateV3 NilUUID Namespace_DNS []) = 3 := by
  constructor
  · decide
  · decide

/-- C2 (amended): after any generation call *whose inputs satisfy the
generators' documented preconditions* (a non-empty name for v3/v5 — the
namespace is a 16-byte value by type; 16 random bytes for v4; v1
unconditional), the variant bits are `10` and the version nibble equals
the requested version. -/
theorem c2_version_variant_amended (u : UUID) (ns : Namespace) (name : List Nat)
    (hname : name ≠ []) :
    (uuidVersion (generateV3 u ns name) = 3 ∧ variantBits (generateV3 u ns name) = 2) ∧
    (uuidVersion (generateV5 u ns name) = 5 ∧ variantBits (generateV5 u ns name) = 2) ∧
    (∀ (st : GenState) (now : Int),
      uuidVersion (generateV1 st now u).2 = 1 ∧ variantBits (generateV1 st now u).2 = 2) ∧
    (∀ r : List Nat, r.length = 16 →
      uuidVersion (generateV4 u r) = 4 ∧ variantBits (generateV4 u r) = 2) := by
  refine ⟨?_, ?_, ?_, ?_⟩
  · rw [generateV3_eq_specV3 ns name hname u]
    exact specV3_version_variant ns name
  · rw [generateV5_eq_specV5 ns name hname u]
    exact specV5_version_variant ns name
  · intro st now
    have hgen : (generateV1 st now u).2 =
        setNodeField (v1TimeBytes st now u) ((getTimestampV1 st now).2.nodeId) := rfl
    constructor
    · show getByte (generateV1 st now u).2 6 >>> 4 = 1
      rw [hgen, (setNodeField_bytes68 _ _).1, v1TimeBytes_byte6]
      exact v1_version_byte _
        (by have := @Nat.and_le_right (toUInt64bits ((getTimestampV1 st now).1) >>> 48) 4095; omega)
    · show getByte (generateV1 st now u).2 8 >>> 6 = 2
      rw [hgen, (setNodeField_bytes68 _ _).2, v1TimeBytes_byte8]
      exact v1_variant_byte _
        (by have := @Nat.and_le_right ((getTimestampV1 st now).2.clockSeq) 16383; omega)
  · intro r hr
    constructor
    · show (generateV4 u r).val.getD 6 0 >>> 4 = 4
      rw [generateV4_val u r hr, overwrite_getD6 r hr]
      rw [show (4 : Nat) <<< 4 = 64 from by decide]
      exact nibble_or_64 _ (by have := @Nat.and_le_right (r.getD 6 0) 15; omega)
    · show (generateV4 u r).val.getD 8 0 >>> 6 = 2
      rw [generateV4_val u r hr, overwrite_getD8 r hr]
      exact variant_or_128 _ (by have := @Nat.and_le_right (r.getD 8 0) 63; omega)

/-- Witness for the amended C2 (v3 component, at concrete inputs). -/
theorem c2_version_variant_amended_witness :
    ([0] : List Nat) ≠ [] ∧
    (uuidVersion (generateV3 NilUUID Namespace_DNS [0]) = 3 ∧
     variantBits (generateV3 NilUUID Namespace_DNS [0]) = 2) :=
  ⟨by decide,
    (c2_version_variant_amended NilUUID Namespace_DNS [0] (by decide)).1⟩

/-- C6: in the v1 generator, the clock-sequence bump happens exactly when
the fresh timestamp is not strictly greater than `lastTimestamp` (the
increment being modulo `2^14`), and `lastTimestamp` is then set to the
fresh timestamp in every case. -/
theorem c6_clock_bump (st : GenState) (now : Int) (hcs : st.clockSeq < 16384) :
    (getTimestampV1 st now).2.lastTime = (getTimestampV1 st now).1 ∧
    (getTimestampV1 st now).2.clockSeq =
      (if (getTimestampV1 st now).1 ≤ st.lastTime
       then (st.clockSeq + 1) % 16384
       else st.clockSeq) := by
  constructor
  · rfl
  · rw [show (getTimestampV1 st now).1 = Int.tdiv now 100 + 122192928000000000 from rfl]
    show (if Int.tdiv now 100 + 122192928000000000 ≤ st.lastTime
          then { st with clockSeq := ((st.clockSeq + 1) % 65536) &&& 16383 }
          else st).clockSeq = _
    by_cases hle : Int.tdiv now 100 + 122192928000000000 ≤ st.lastTime
    · rw [if_pos hle, if_pos hle]
      show ((st.clockSeq + 1) % 65536) &&& 16383 = (st.clockSeq + 1) % 16384
      rw [Nat.mod_eq_of_lt (by omega)]
      have h2 := Nat.and_pow_two_sub_one_eq_mod (st.clockSeq + 1) 14
      norm_num at h2
      exact h2
    · rw [if_neg hle, if_neg hle]

/-- Witness for C6, exercising the bump branch (`now = 0` gives a
timestamp below the stored `lastTime`). -/
theorem c6_clock_bump_witness :
    (⟨200000000000000000, 7, []⟩ : GenState).clockSeq < 16384 ∧
    ((getTimestampV1 ⟨200000000000000000, 7, []⟩ 0).2.lastTime =
       (getTimestampV1 ⟨200000000000000000, 7, []⟩ 0).1 ∧
     (getTimestampV1 ⟨200000000000000000, 7, []⟩ 0).2.clockSeq =
       (if (getTimestampV1 ⟨200000000000000000, 7, []⟩ 0).1 ≤
           (⟨200000000000000000, 7, []⟩ : GenState).lastTime
        then ((⟨200000000000000000, 7, []⟩ : GenState).clockSeq + 1) % 16384
        else (⟨200000000000000000, 7, []⟩ : GenState).clockSeq)) :=
  ⟨by decide, c6_clock_bump ⟨200000000000000000, 7, []⟩ 0 (by decide)⟩

/-- C8 is violated by the source: `initNodeId` forces the low bit of
`nodeId[5]` — the *last* octet of the node field (UUID byte 15) — although
its own comment (and RFC4122 §4.5, and the claim) put the multicast bit in
the least significant bit of the *first* node octet (UUID byte 10).  With
six zero random bytes, the generated v1 identifier has byte 10 even. -/
theorem c8_node_multicast_bit :
    initNodeId [0, 0, 0, 0, 0, 0] = [0, 0, 0, 0, 0, 1] ∧
    getByte (generateV1 ⟨0, 0, initNodeId [0, 0, 0, 0, 0, 0]⟩ 0 NilUUID).2 10 % 2 = 0 ∧
    getByte (generateV1 ⟨0, 0, initNodeId [0, 0, 0, 0, 0, 0]⟩ 0 NilUUID).2 15 % 2 = 1 := by
  refine ⟨by decide, by decide, by decide⟩

/-- C10: one v1 generation mutates only `lastTimestamp` and
`clockSequence`: the node id in the state is untouched, and the node field
(bytes 10-15) of the produced identifier is exactly the state's node id. -/
theorem c10_generateV1_frame (st : GenState) (now : Int) (u : UUID)
    (hn : st.nodeId.length = 6) :
    (generateV1 st now u).1.nodeId = st.nodeId ∧
    ((generateV1 st now u).2).val.drop 10 = st.nodeId := by
  have hnode : (getTimestampV1 st now).2.nodeId = st.nodeId := getTimestampV1_nodeId st now
  constructor
  · show (getTimestampV1 st now).2.nodeId = st.nodeId
    exact hnode
  · have hgen : (generateV1 st now u).2 =
        setNodeField (v1TimeBytes st now u) ((getTimestampV1 st now).2.nodeId) := rfl
    rw [hgen, hnode, setNodeField_drop10 _ _ hn]

/-- Witness for C10 at a concrete state, clock value and receiver. -/
theorem c10_generateV1_frame_witness :
    (⟨0, 0, [1, 2, 3, 4, 5, 6]⟩ : GenState).nodeId.length = 6 ∧
    ((generateV1 ⟨0, 0, [1, 2, 3, 4, 5, 6]⟩ 0 NilUUID).1.nodeId =
       (⟨0, 0, [1, 2, 3, 4, 5, 6]⟩ : GenState).nodeId ∧
     ((generateV1 ⟨0, 0, [1, 2, 3, 4, 5, 6]⟩ 0 NilUUID).2).val.drop 10 =
       (⟨0, 0, [1, 2, 3, 4, 5, 6]⟩ : GenState).nodeId) :=
  ⟨by decide, c10_generateV1_frame ⟨0, 0, [1, 2, 3, 4, 5, 6]⟩ 0 NilUUID (by decide)⟩

/-- C9: toString of the Nil identifier is exactly
`"00000000-0000-0000-0000-000000000000"` and its version is 0. -/
theorem c9_nil_identity :
    uuidToString NilUUID = "00000000-0000-0000-0000-000000000000" ∧
    uuidVersion NilUUID = 0 := by
  constructor
  · decide
  · decide

end UuidGo
